import Mathlib

/-!
Shallow embedding of the calendar-events subsystem of the backend repository:
recurrence expansion, conflict detection, and the create/update/delete event
handlers, together with the Postgres schema constraints they rely on.

Timestamps are modelled as integer milliseconds since the Unix epoch, in UTC.
JavaScript `Date` calendar operations (`setDate`, `setMonth`) are modelled via
the ECMA-262 `MakeDay` construction: a civil (year, month, day) triple with a
possibly out-of-range day component denotes the first day of the month plus
`day - 1` days.  Civil/day-number conversions use the standard proleptic
Gregorian algorithms.
-/

namespace CalendarBackend

/-- Milliseconds in one UTC day. -/
def msPerDay : Int := 86400000

/-- Gregorian leap-year test. -/
def isLeap (y : Int) : Bool := (y % 4 == 0 && y % 100 != 0) || (y % 400 == 0)

/-- Number of days in month `m` (1-12) of year `y`. -/
def daysInMonth (y m : Int) : Int :=
  if m == 2 then (if isLeap y then 29 else 28)
  else if m == 4 || m == 6 || m == 9 || m == 11 then 30
  else 31

/-- Day number (days since 1970-01-01) of the civil date `y-m-d`, `m` in 1..12.
Standard proleptic-Gregorian conversion. -/
def daysFromCivil (y m d : Int) : Int :=
  let y1 : Int := if m ≤ 2 then y - 1 else y
  let era : Int := Int.fdiv y1 400
  let yoe : Int := y1 - era * 400
  let mp : Int := Int.emod (m + 9) 12
  let doy : Int := Int.fdiv (153 * mp + 2) 5 + d - 1
  let doe : Int := yoe * 365 + Int.fdiv yoe 4 - Int.fdiv yoe 100 + doy
  era * 146097 + doe - 719468

/-- Civil date `(y, m, d)` of a day number (days since 1970-01-01).
Inverse of `daysFromCivil`. -/
def civilFromDays (z0 : Int) : Int × Int × Int :=
  let z : Int := z0 + 719468
  let era : Int := Int.fdiv z 146097
  let doe : Int := z - era * 146097
  let yoe : Int :=
    Int.fdiv (doe - Int.fdiv doe 1460 + Int.fdiv doe 36524 - Int.fdiv doe 146096) 365
  let y : Int := yoe + era * 400
  let doy : Int := doe - (365 * yoe + Int.fdiv yoe 4 - Int.fdiv yoe 100)
  let mp : Int := Int.fdiv (5 * doy + 2) 153
  let d : Int := doy - Int.fdiv (153 * mp + 2) 5 + 1
  let m : Int := mp + (if mp < 10 then 3 else -9)
  (if m ≤ 2 then y + 1 else y, m, d)

/-- The day-number part of a timestamp. -/
def dayNumber (t : Int) : Int := Int.fdiv t msPerDay

/-- The time-of-day part of a timestamp, in milliseconds. -/
def msOfDay (t : Int) : Int := Int.emod t msPerDay

/-- `Date.prototype.getDate()` on a UTC timestamp: the day of the month. -/
def getDate (t : Int) : Int := (civilFromDays (dayNumber t)).2.2

/-- `Date.prototype.getMonth()` on a UTC timestamp: the 0-based month. -/
def getMonth (t : Int) : Int := (civilFromDays (dayNumber t)).2.1 - 1

/-- ECMA-262 `MakeDay`-style recomposition: civil year/1-based month with the
day component allowed to be out of range (it rolls over into adjacent months),
keeping a given time of day. -/
def makeTimestamp (y m d msod : Int) : Int :=
  (daysFromCivil y m 1 + (d - 1)) * msPerDay + msod

/-- `Date.prototype.setDate(dayArg)` on a UTC timestamp: replaces the
day-of-month, with out-of-range values rolling across months. -/
def setDateJS (t dayArg : Int) : Int :=
  let c := civilFromDays (dayNumber t)
  makeTimestamp c.1 c.2.1 dayArg (msOfDay t)

/-- `Date.prototype.setMonth(monthArg)` on a UTC timestamp: replaces the
0-based month, with out-of-range values rolling across years, and the day
component re-normalised per `MakeDay`. -/
def setMonthJS (t monthArg : Int) : Int :=
  let c := civilFromDays (dayNumber t)
  makeTimestamp (c.1 + Int.fdiv monthArg 12) (Int.emod monthArg 12 + 1) c.2.2 (msOfDay t)

/-- Convenience constructor for a concrete UTC timestamp. -/
def ts (y m d hh mi : Int) : Int :=
  daysFromCivil y m d * msPerDay + (hh * 60 + mi) * 60000

/-- The `recurrence` column values: `none`, `daily`, `weekly`, `monthly`. -/
inductive Recurrence where
  | none
  | daily
  | weekly
  | monthly
deriving DecidableEq, Repr

/-- A row of the `calendar_events` table (and, with `id := Option.none`, an
insert payload before the store assigns an id).  The `created_at` and
`updated_at` bookkeeping columns are not modelled: no claim refers to them. -/
structure Event where
  id : Option String
  user_id : String
  title : String
  description : Option String
  color : String
  notes : Option String
  start_time : Int
  end_time : Int
  recurrence : Recurrence
  category : Option String
  parent_event_id : Option String
deriving DecidableEq, Repr

/-- `maxOccurrences` from `generateRecurringEvents`:
`recurrence === "daily" ? 30 : recurrence === "weekly" ? 52 : 12`. -/
def maxOccurrences : Recurrence → Nat
  | .daily => 30
  | .weekly => 52
  | _ => 12

/-- The `switch (recurrence)` step of `generateRecurringEvents`: start time of
occurrence `i`.  `daily` and `weekly` use `setDate(getDate() + i)` /
`setDate(getDate() + i * 7)`; `monthly` uses `setMonth(getMonth() + i)`; with
no matching case the copied date is left unchanged. -/
def nextStartTime (recurrence : Recurrence) (startT : Int) (i : Int) : Int :=
  match recurrence with
  | .daily => setDateJS startT (getDate startT + i)
  | .weekly => setDateJS startT (getDate startT + i * 7)
  | .monthly => setMonthJS startT (getMonth startT + i)
  | .none => startT

/-- The event object built for occurrence `i` inside the loop of
`generateRecurringEvents`. -/
def recurringInstance (base : Event) (recurrence : Recurrence) (userId : String)
    (i : Int) : Event :=
  let newStart := nextStartTime recurrence base.start_time i
  let duration := base.end_time - base.start_time
  { id := Option.none
    user_id := userId
    title := base.title
    description := base.description
    color := base.color
    notes := base.notes
    start_time := newStart
    end_time := newStart + duration
    recurrence := .none
    category := base.category
    parent_event_id := base.id }

/-- The list of payloads built by the loop `for (let i = 1; i < maxOccurrences;
i++)` of `generateRecurringEvents` (before the batch insert). -/
def generateRecurringPayloads (base : Event) (recurrence : Recurrence)
    (userId : String) : List Event :=
  (List.range' 1 (maxOccurrences recurrence - 1)).map
    (fun i => recurringInstance base recurrence userId (Int.ofNat i))

/-- Recurrence expansion as invoked by the create handler: the generator runs
only under the guard `if (eventData.recurrence !== "none")`, so `none` yields
an empty sequence. -/
def expandRecurrence (base : Event) (recurrence : Recurrence)
    (userId : String) : List Event :=
  if recurrence = .none then [] else generateRecurringPayloads base recurrence userId

/-! ## The store: `calendar_events` table constraints -/

/-- The `end_after_start` CHECK constraint of the `calendar_events` table:
`end_time > start_time`.  (The `valid_color` regex CHECK is not modelled; no
claim depends on colors.) -/
def rowValid (e : Event) : Bool := decide (e.start_time < e.end_time)

/-- An atomic (all-or-nothing) batch INSERT into `calendar_events`.  Every
inserted row must satisfy the `end_after_start` CHECK constraint or the whole
statement fails. -/
def dbInsertMany (store : List Event) (rows : List Event) : Option (List Event) :=
  if rows.all rowValid then some (store ++ rows) else Option.none

/-! ## Conflict predicates

`overlaps` is the half-open interval overlap test; the SQL
`check_event_conflicts` WHERE clause and the update handler's conflict query
both use it, while the create handler filters on `start_time` alone. -/

/-- Half-open interval overlap: `aStart < bEnd AND aEnd > bStart`. -/
def overlaps (aStart aEnd bStart bEnd : Int) : Bool :=
  decide (aStart < bEnd) && decide (aEnd > bStart)

/-- The WHERE clause of the SQL function `check_event_conflicts` applied to
a row (the `user_id` and `exclude_event_id` filters are handled separately):
`e.start_time < event_end AND e.end_time > event_start`. -/
def sqlConflictWhere (eventStart eventEnd : Int) (e : Event) : Bool :=
  decide (e.start_time < eventEnd) && decide (e.end_time > eventStart)

/-- The time filter of the update handler's conflict query:
`and(start_time.lt.end, end_time.gt.start)`. -/
def updateConflictWhere (startT endT : Int) (e : Event) : Bool :=
  decide (e.start_time < endT) && decide (e.end_time > startT)

/-- The time filter of the create handler's conflict query:
`gte("start_time", eventData.start_time).lte("start_time", eventData.end_time)`
together with `neq("id", "")`. -/
def createConflictWhere (startT endT : Int) (e : Event) : Bool :=
  decide (startT ≤ e.start_time) && decide (e.start_time ≤ endT) && (e.id != some "")

/-- The `overlap_type` values produced by the SQL `check_event_conflicts`. -/
inductive OverlapType where
  | encompasses
  | within
  | overlaps_start
  | overlaps_end
  | adjacent
deriving DecidableEq, Repr

/-- The CASE expression of `check_event_conflicts`, classifying a row
`(bS, bE)` against the query interval `(eventStart, eventEnd)`, branches
evaluated in source order. -/
def classify (eventStart eventEnd bS bE : Int) : OverlapType :=
  if bS < eventStart ∧ bE > eventEnd then .encompasses
  else if bS ≥ eventStart ∧ bE ≤ eventEnd then .within
  else if bS < eventStart ∧ bE > eventStart then .overlaps_start
  else if bS < eventEnd ∧ bE > eventEnd then .overlaps_end
  else .adjacent

/-- The SQL function `check_event_conflicts`: the caller's rows that pass the
user, exclusion and overlap filters, each annotated with its `overlap_type`.
(The trailing `ORDER BY start_time` is not modelled; no claim concerns row
order.) -/
def checkEventConflicts (store : List Event) (eventStart eventEnd : Int)
    (eventUserId : String) (excludeEventId : Option String) :
    List (Event × OverlapType) :=
  (store.filter (fun e =>
      e.user_id == eventUserId
        && (match excludeEventId with
            | some ex => e.id != some ex
            | Option.none => true)
        && sqlConflictWhere eventStart eventEnd e)).map
    (fun e => (e, classify eventStart eventEnd e.start_time e.end_time))

/-! ## The create handler (`POST` create-event) -/

/-- The body accepted by `CreateEventSchema` after parsing.  String-format
checks (ISO datetime syntax, the color regex) are abstracted away: the fields
are already typed values here. -/
structure CreateInput where
  title : String
  description : Option String
  color : String
  notes : Option String
  start_time : Int
  end_time : Int
  recurrence : Recurrence
  category : Option String
deriving DecidableEq, Repr

/-- `CreateEventSchema` validation: non-empty title of at most 200 characters
and the `.refine` check `endTime > startTime`. -/
def createSchemaValid (inp : CreateInput) : Bool :=
  decide (1 ≤ inp.title.length) && decide (inp.title.length ≤ 200)
    && decide (inp.start_time < inp.end_time)

/-- The create handler's advisory conflict query: the user's events whose
`start_time` lies in the closed interval `[start_time, end_time]` of the
candidate. -/
def conflictsQueryCreate (store : List Event) (uid : String)
    (inp : CreateInput) : List Event :=
  store.filter (fun e =>
    e.user_id == uid && createConflictWhere inp.start_time inp.end_time e)

/-- The JSON response of the create handler (plus the resulting store).
`conflicts` mirrors the `conflicts` field of the 201 body: `some (count,
events)` when the advisory query returned a non-empty list, otherwise
`Option.none`. -/
structure CreateResult where
  store : List Event
  status : Nat
  success : Bool
  data : Option Event
  recurring_events_created : Nat
  conflicts : Option (Nat × List Event)
deriving Repr

/-- The row the create handler inserts for the base event: the validated body
plus `user_id`, with the id the store assigns. -/
def baseRowOf (uid : String) (inp : CreateInput) (freshId : String) : Event :=
  { id := some freshId
    user_id := uid
    title := inp.title
    description := inp.description
    color := inp.color
    notes := inp.notes
    start_time := inp.start_time
    end_time := inp.end_time
    recurrence := inp.recurrence
    category := inp.category
    parent_event_id := Option.none }

/-- The `conflicts` field of the create handler's 201 body:
`existingEvents?.length ? { count, events } : null`, where `existingEvents`
is `null` when the advisory query failed (`cqOk = false`). -/
def conflictsFieldOf (cqOk : Bool) (store : List Event) (uid : String)
    (inp : CreateInput) : Option (Nat × List Event) :=
  if cqOk then
    (if 0 < (conflictsQueryCreate store uid inp).length
     then some ((conflictsQueryCreate store uid inp).length,
         conflictsQueryCreate store uid inp)
     else Option.none)
  else Option.none

/-- The create handler (`POST`): validate, run the advisory conflict query,
insert the base row, then expand the recurrence and batch-insert the derived
payloads.  `freshId` is the id the store assigns to the base row (ids of the
derived rows are left unassigned; no claim depends on them).  `batchOk` models
whether the batch insert of derived rows succeeds at the store
(`generateRecurringEvents` swallows that error and returns `[]`); `cqOk`
models whether the advisory query succeeds (its error is only logged). -/
def createEvent (store : List Event) (uid : String) (inp : CreateInput)
    (freshId : String) (batchOk : Bool) (cqOk : Bool) : CreateResult :=
  if ¬ createSchemaValid inp then
    ⟨store, 400, false, Option.none, 0, Option.none⟩
  else
    match dbInsertMany store [baseRowOf uid inp freshId] with
    | Option.none => ⟨store, 500, false, Option.none, 0, Option.none⟩
    | some store1 =>
      if 0 < (expandRecurrence (baseRowOf uid inp freshId) inp.recurrence uid).length then
        if batchOk then
          match dbInsertMany store1
              (expandRecurrence (baseRowOf uid inp freshId) inp.recurrence uid) with
          | some store2 =>
            ⟨store2, 201, true, some (baseRowOf uid inp freshId),
              (expandRecurrence (baseRowOf uid inp freshId) inp.recurrence uid).length,
              conflictsFieldOf cqOk store uid inp⟩
          | Option.none =>
            ⟨store1, 201, true, some (baseRowOf uid inp freshId), 0,
              conflictsFieldOf cqOk store uid inp⟩
        else
          ⟨store1, 201, true, some (baseRowOf uid inp freshId), 0,
            conflictsFieldOf cqOk store uid inp⟩
      else
        ⟨store1, 201, true, some (baseRowOf uid inp freshId), 0,
          conflictsFieldOf cqOk store uid inp⟩

/-! ## The update handler (`PUT` update-event) -/

/-- The body accepted by `UpdateEventSchema`: every field optional. -/
structure UpdatePatch where
  title : Option String
  description : Option String
  color : Option String
  notes : Option String
  start_time : Option Int
  end_time : Option Int
  recurrence : Option Recurrence
  category : Option String
deriving DecidableEq, Repr

/-- `UpdateEventSchema` validation: the `.refine` check compares the times
only when both are supplied; a provided title must be non-empty and at most
200 characters. -/
def updateSchemaValid (p : UpdatePatch) : Bool :=
  (match p.title with
   | some t => decide (1 ≤ t.length) && decide (t.length ≤ 200)
   | Option.none => true)
    && (match p.start_time, p.end_time with
        | some s, some e => decide (s < e)
        | _, _ => true)

/-- Field overlay for the optional-valued columns: a supplied patch value
replaces the stored one, an absent key keeps it. -/
def patchOpt {α : Type} (new old : Option α) : Option α :=
  match new with
  | some v => some v
  | Option.none => old

/-- The `{ ...updateData }` spread: provided fields replace the existing
row's fields. -/
def applyPatch (e : Event) (p : UpdatePatch) : Event :=
  { e with
    title := p.title.getD e.title
    description := patchOpt p.description e.description
    color := p.color.getD e.color
    notes := patchOpt p.notes e.notes
    start_time := p.start_time.getD e.start_time
    end_time := p.end_time.getD e.end_time
    recurrence := p.recurrence.getD e.recurrence
    category := patchOpt p.category e.category }

/-- The update handler's advisory conflict query, issued only when the patch
supplies `start_time` or `end_time`: the user's other events overlapping the
effective interval (patch value, or the existing row's value where absent).
The handler drops the result: it appears nowhere in the response. -/
def updateConflictCheck (store : List Event) (uid : String) (eventId : String)
    (existing : Event) (p : UpdatePatch) : Option (List Event) :=
  if p.start_time.isSome || p.end_time.isSome then
    let startT := p.start_time.getD existing.start_time
    let endT := p.end_time.getD existing.end_time
    some (store.filter (fun e =>
      e.user_id == uid && e.id != some eventId && updateConflictWhere startT endT e))
  else Option.none

/-- The JSON response of the update handler (plus the resulting store).  The
200 body contains only `success`, `data` and `message`; it has no conflicts
field, so `conflicts` is always `Option.none` here. -/
structure UpdateResult where
  store : List Event
  status : Nat
  success : Bool
  data : Option Event
  conflicts : Option (Nat × List Event)
deriving Repr

/-- The update handler (`PUT`): validate the patch, look up the target row by
id and owner, and apply the patch; the UPDATE must satisfy the
`end_after_start` CHECK constraint or it fails with a 500 and the store is
unchanged.  The advisory conflict query (`updateConflictCheck`) is issued when
a time changes, but its result is discarded by the source, so it does not
appear in the result. -/
def updateEvent (store : List Event) (uid : String) (eventId : String)
    (p : UpdatePatch) : UpdateResult :=
  if ¬ updateSchemaValid p then
    ⟨store, 400, false, Option.none, Option.none⟩
  else
    match store.find? (fun e => e.id == some eventId && e.user_id == uid) with
    | Option.none => ⟨store, 404, false, Option.none, Option.none⟩
    | some existing =>
      if rowValid (applyPatch existing p) then
        ⟨store.map (fun e =>
            if e.id == some eventId && e.user_id == uid
            then applyPatch existing p else e),
          200, true, some (applyPatch existing p), Option.none⟩
      else ⟨store, 500, false, Option.none, Option.none⟩

/-! ## The delete handler (`DELETE` delete-event) -/

/-- A row orphaned by a deletion: its `parent_event_id` is among the deleted
ids, so `ON DELETE CASCADE` removes it. -/
def orphanPred (deletedIds : List String) (e : Event) : Bool :=
  match e.parent_event_id with
  | some p => deletedIds.contains p
  | Option.none => false

/-- A row untouched by a cascade from `deletedIds`: its parent (if any) is not
among them. -/
def parentNotIn (deletedIds : List String) (e : Event) : Bool :=
  ! orphanPred deletedIds e

/-- One round of `ON DELETE CASCADE` on `parent_event_id`: rows whose parent
id is among the already-deleted ids are removed, possibly enabling further
rounds.  `fuel` bounds the iteration; `store.length` rounds always suffice
because each productive round removes at least one row. -/
def cascadeAux : Nat → List Event → List String → List Event
  | 0, store, _ => store
  | fuel + 1, store, deletedIds =>
    let orphaned := store.filter (orphanPred deletedIds)
    if orphaned.isEmpty then store
    else
      cascadeAux fuel (store.filter (parentNotIn deletedIds))
        (orphaned.filterMap Event.id ++ deletedIds)

/-- `ON DELETE CASCADE` closure: remove every row whose parent chain reaches
one of `deletedIds`. -/
def removeCascade (store : List Event) (deletedIds : List String) : List Event :=
  cascadeAux store.length store deletedIds

/-- Row predicate of the series-branch DELETE:
`or(id.eq.parentId, parent_event_id.eq.parentId)` restricted to the user. -/
def seriesRowPred (uid parentId : String) (e : Event) : Bool :=
  (e.id == some parentId || e.parent_event_id == some parentId) && e.user_id == uid

/-- Row predicate of the single-event DELETE: `id` and `user_id` match. -/
def singleRowPred (uid eventId : String) (e : Event) : Bool :=
  e.id == some eventId && e.user_id == uid

/-- The JSON response of the delete handler (plus the resulting store). -/
structure DeleteResult where
  store : List Event
  status : Nat
  success : Bool
  deleted_count : Nat
deriving Repr

/-- The delete handler (`DELETE`): look up the target row by id and owner;
with `delete_recurring=true` AND a non-null `parent_event_id` on the target,
delete the user's rows whose `id` or `parent_event_id` equals that parent id
(reporting the exact count of rows the statement removed); otherwise delete
the single row.  Rows referencing a deleted row through `parent_event_id` are
then removed by the store's cascade, which the reported count does not see. -/
def deleteEvent (store : List Event) (uid : String) (eventId : String)
    (deleteRecurring : Bool) : DeleteResult :=
  match store.find? (fun e => e.id == some eventId && e.user_id == uid) with
  | Option.none => ⟨store, 404, false, 0⟩
  | some existing =>
    match deleteRecurring, existing.parent_event_id with
    | true, some parentId =>
      let deleted := store.filter (seriesRowPred uid parentId)
      let remaining := store.filter (fun e => ! seriesRowPred uid parentId e)
      let finalStore := removeCascade remaining (deleted.filterMap Event.id)
      if deleted.length = 0 then ⟨finalStore, 404, false, 0⟩
      else ⟨finalStore, 200, true, deleted.length⟩
    | _, _ =>
      let deleted := store.filter (singleRowPred uid eventId)
      let remaining := store.filter (fun e => ! singleRowPred uid eventId e)
      let finalStore := removeCascade remaining (deleted.filterMap Event.id)
      if deleted.length = 0 then ⟨finalStore, 404, false, 0⟩
      else ⟨finalStore, 200, true, deleted.length⟩

/-! ## Concrete sample data used by witnesses and counterexamples -/

/-- A base event of the weekly scenario of §8 of the spec:
2025-01-01T10:00 to 2025-01-01T11:00. -/
def sampleBase : Event :=
  { id := some "base-1"
    user_id := "user-1"
    title := "standup"
    description := Option.none
    color := "#4CAF50"
    notes := Option.none
    start_time := ts 2025 1 1 10 0
    end_time := ts 2025 1 1 11 0
    recurrence := .weekly
    category := Option.none
    parent_event_id := Option.none }

/-- An existing event `[11:00, 12:00)` that merely touches `sampleBase`. -/
def touchingEvent : Event :=
  { id := some "other-1"
    user_id := "user-1"
    title := "lunch"
    description := Option.none
    color := "#4CAF50"
    notes := Option.none
    start_time := ts 2025 1 1 11 0
    end_time := ts 2025 1 1 12 0
    recurrence := .none
    category := Option.none
    parent_event_id := Option.none }

/-- A create body for the interval `[10:00, 11:00)` with no recurrence. -/
def sampleCreateInput : CreateInput :=
  { title := "standup"
    description := Option.none
    color := "#4CAF50"
    notes := Option.none
    start_time := ts 2025 1 1 10 0
    end_time := ts 2025 1 1 11 0
    recurrence := .none
    category := Option.none }

/-- The same body with daily recurrence. -/
def sampleDailyInput : CreateInput :=
  { sampleCreateInput with recurrence := .daily }

/-- A recurring-series base row as stored: id `b`, no parent. -/
def seriesBase : Event :=
  { id := some "b"
    user_id := "user-1"
    title := "standup"
    description := Option.none
    color := "#4CAF50"
    notes := Option.none
    start_time := ts 2025 1 2 10 0
    end_time := ts 2025 1 2 11 0
    recurrence := .daily
    category := Option.none
    parent_event_id := Option.none }

/-- A derived instance of `seriesBase` as stored: id `c`, parent `b`. -/
def seriesChild : Event :=
  { seriesBase with
    id := some "c"
    start_time := ts 2025 1 3 10 0
    end_time := ts 2025 1 3 11 0
    recurrence := .none
    parent_event_id := some "b" }

/-- An existing event `[12:00, 13:00)` of the same user, used as the overlap
partner of an update. -/
def overlapPartner : Event :=
  { id := some "x"
    user_id := "user-1"
    title := "review"
    description := Option.none
    color := "#4CAF50"
    notes := Option.none
    start_time := ts 2025 1 1 12 0
    end_time := ts 2025 1 1 13 0
    recurrence := .none
    category := Option.none
    parent_event_id := Option.none }

/-- An update patch moving the target to `[12:30, 13:30)`, overlapping
`overlapPartner`. -/
def movePatch : UpdatePatch :=
  { title := Option.none
    description := Option.none
    color := Option.none
    notes := Option.none
    start_time := some (ts 2025 1 1 12 30)
    end_time := some (ts 2025 1 1 13 30)
    recurrence := Option.none
    category := Option.none }

/-! ## Helper lemmas -/

/-- A filter and its complement partition a list. -/
theorem length_filter_not_add {α : Type} (p : α → Bool) (l : List α) :
    (l.filter p).length + (l.filter (fun a => ! p a)).length = l.length := by
  induction l with
  | nil => rfl
  | cons a l ih =>
    cases h : p a <;> simp [List.filter_cons, h] <;> omega

/-- Cascade only removes rows. -/
theorem mem_of_mem_cascadeAux (fuel : Nat) (store : List Event)
    (ids : List String) (e : Event) (he : e ∈ cascadeAux fuel store ids) :
    e ∈ store := by
  induction fuel generalizing store ids with
  | zero => simpa [cascadeAux] using he
  | succ n ih =>
    simp only [cascadeAux] at he
    split at he
    · exact he
    · exact List.mem_of_mem_filter (ih _ _ he)

/-- With enough fuel, no survivor of the cascade references a deleted id. -/
theorem parentNotIn_of_mem_cascadeAux (fuel : Nat) (store : List Event)
    (ids : List String) (hfuel : store.length ≤ fuel) (e : Event)
    (he : e ∈ cascadeAux fuel store ids) : parentNotIn ids e = true := by
  induction fuel generalizing store ids with
  | zero =>
    have hnil : store = [] := List.eq_nil_of_length_eq_zero (Nat.le_zero.mp hfuel)
    subst hnil
    simp [cascadeAux] at he
  | succ n ih =>
    simp only [cascadeAux] at he
    split at he
    · rename_i hemp
      have hfil : store.filter (orphanPred ids) = [] := List.isEmpty_iff.mp hemp
      have hnot := List.filter_eq_nil_iff.mp hfil e he
      simp [parentNotIn, Bool.eq_false_iff.mpr hnot]
    · rename_i hemp
      have hne : store.filter (orphanPred ids) ≠ [] := fun h => hemp (by simp [h])
      have hlt : (store.filter (parentNotIn ids)).length < store.length := by
        have hpart := length_filter_not_add (orphanPred ids) store
        have hpos : 0 < (store.filter (orphanPred ids)).length :=
          List.length_pos.mpr hne
        have hconv : store.filter (parentNotIn ids) =
            store.filter (fun a => ! orphanPred ids a) := rfl
        rw [hconv]
        omega
      have hrec := ih (store.filter (parentNotIn ids)) _ (by omega) he
      have hmem := mem_of_mem_cascadeAux _ _ _ _ he
      have hkeep := List.of_mem_filter hmem
      exact hkeep

/-- A cascade that has nothing to remove is the identity. -/
theorem removeCascade_eq_self (store : List Event) (ids : List String)
    (h : store.all (parentNotIn ids) = true) : removeCascade store ids = store := by
  unfold removeCascade
  cases store with
  | nil => rfl
  | cons a l =>
    simp only [List.length_cons, cascadeAux]
    have hfil : (a :: l).filter (orphanPred ids) = [] := by
      apply List.filter_eq_nil_iff.mpr
      intro x hx
      have := List.all_eq_true.mp h x hx
      simp [parentNotIn] at this
      simp [this]
    simp [hfil]

/-- No survivor of a `removeCascade` references a deleted id. -/
theorem parentNotIn_of_mem_removeCascade (store : List Event)
    (ids : List String) (e : Event) (he : e ∈ removeCascade store ids) :
    parentNotIn ids e = true :=
  parentNotIn_of_mem_cascadeAux store.length store ids (Nat.le_refl _) e he

/-- The generator always builds `maxOccurrences - 1` payloads. -/
theorem length_generateRecurringPayloads (base : Event) (rec : Recurrence)
    (uid : String) :
    (generateRecurringPayloads base rec uid).length = maxOccurrences rec - 1 := by
  unfold generateRecurringPayloads
  rw [List.length_map, List.length_range']

/-! ## Claim theorems -/

/-- C1: recurrence expansion produces exactly 29 additional derived instances
for `daily`, 51 for `weekly`, 11 for `monthly`, and an empty sequence for
`none`. -/
theorem expandRecurrence_counts (base : Event) (userId : String) :
    (expandRecurrence base .daily userId).length = 29 ∧
    (expandRecurrence base .weekly userId).length = 51 ∧
    (expandRecurrence base .monthly userId).length = 11 ∧
    (expandRecurrence base .none userId).length = 0 := by
  exact ⟨rfl, rfl, rfl, rfl⟩

/-- C3: every derived instance produced by recurrence expansion preserves the
base event's duration exactly: `endTime - startTime` of the instance equals
`endTime - startTime` of the base. -/
theorem derived_duration_preserved (base : Event) (rec : Recurrence)
    (uid : String) (e : Event) (he : e ∈ expandRecurrence base rec uid) :
    e.end_time - e.start_time = base.end_time - base.start_time := by
  unfold expandRecurrence at he
  split at he
  · simp at he
  · simp only [generateRecurringPayloads, List.mem_map] at he
    obtain ⟨i, _, rfl⟩ := he
    simp [recurringInstance]

/-- C3 witness: the first daily instance of `sampleBase` preserves its
one-hour duration. -/
theorem derived_duration_preserved_witness :
    (recurringInstance sampleBase .daily "user-1" 1).end_time -
        (recurringInstance sampleBase .daily "user-1" 1).start_time =
      sampleBase.end_time - sampleBase.start_time :=
  derived_duration_preserved sampleBase .daily "user-1"
    (recurringInstance sampleBase .daily "user-1" 1) (by decide)

/-- C4: every derived instance produced by recurrence expansion carries
`recurrence = none` and `parentEventId = base.id`. -/
theorem derived_tagging (base : Event) (rec : Recurrence) (uid : String)
    (e : Event) (he : e ∈ expandRecurrence base rec uid) :
    e.recurrence = .none ∧ e.parent_event_id = base.id := by
  unfold expandRecurrence at he
  split at he
  · simp at he
  · simp only [generateRecurringPayloads, List.mem_map] at he
    obtain ⟨i, _, rfl⟩ := he
    exact ⟨rfl, rfl⟩

/-- C4 witness: the first daily instance of `sampleBase` has recurrence
`none` and parent id `base-1`. -/
theorem derived_tagging_witness :
    (recurringInstance sampleBase .daily "user-1" 1).recurrence = .none ∧
      (recurringInstance sampleBase .daily "user-1" 1).parent_event_id =
        sampleBase.id :=
  derived_tagging sampleBase .daily "user-1"
    (recurringInstance sampleBase .daily "user-1" 1) (by decide)

/-- C2 counterexample: weekly expansion of the base event starting
2025-01-01T10:00 yields as its 51st (last) instance one starting
2025-12-24T10:00 (357 days = 51 weeks after the base), not 2026-01-07T10:00
(which would be 53 weeks after). -/
theorem weekly_last_instance_not_2026_01_07 :
    ((expandRecurrence sampleBase .weekly "user-1").map Event.start_time)[50]? ≠
      some (ts 2026 1 7 10 0) := by decide

/-- C2 amended: weekly expansion of a base event starting 2025-01-01T10:00
and ending 2025-01-01T11:00 produces exactly 51 derived instances; instance 1
starts 2025-01-08T10:00 and ends 2025-01-08T11:00, and instance 51 (the last)
starts 2025-12-24T10:00 and ends 2025-12-24T11:00. -/
theorem weekly_expansion_concrete :
    (expandRecurrence sampleBase .weekly "user-1").length = 51 ∧
    ((expandRecurrence sampleBase .weekly "user-1").map
        (fun e => (e.start_time, e.end_time)))[0]? =
      some (ts 2025 1 8 10 0, ts 2025 1 8 11 0) ∧
    ((expandRecurrence sampleBase .weekly "user-1").map
        (fun e => (e.start_time, e.end_time)))[50]? =
      some (ts 2025 12 24 10 0, ts 2025 12 24 11 0) := by
  refine ⟨rfl, by decide, by decide⟩

/-- C10: every row passing the overlap pre-filter of the SQL function
`check_event_conflicts` is classified by one of the first four CASE branches;
the `adjacent` fallback is unreachable for returned rows. -/
theorem classification_covers_overlaps (store : List Event)
    (eventStart eventEnd : Int) (uid : String) (excl : Option String)
    (e : Event) (k : OverlapType)
    (hmem : (e, k) ∈ checkEventConflicts store eventStart eventEnd uid excl) :
    k ≠ .adjacent ∧
      (k = .encompasses ∨ k = .within ∨ k = .overlaps_start ∨
        k = .overlaps_end) := by
  simp only [checkEventConflicts, List.mem_map] at hmem
  obtain ⟨b, hb, hpair⟩ := hmem
  rw [Prod.mk.injEq] at hpair
  obtain ⟨rfl, rfl⟩ := hpair
  have hfil := List.of_mem_filter hb
  simp only [sqlConflictWhere, Bool.and_eq_true, decide_eq_true_eq] at hfil
  obtain ⟨⟨-, -⟩, hlt, hgt⟩ := hfil
  unfold classify
  split_ifs with h1 h2 h3 h4
  · exact ⟨by decide, Or.inl rfl⟩
  · exact ⟨by decide, Or.inr (Or.inl rfl)⟩
  · exact ⟨by decide, Or.inr (Or.inr (Or.inl rfl))⟩
  · exact ⟨by decide, Or.inr (Or.inr (Or.inr rfl))⟩
  · exact absurd trivial (by intro _; omega)

/-- Characterization of the create handler on a schema-valid body: the base
row is always inserted and the response is a 201 success; the derived batch
contributes its payloads (and their count) exactly when it is non-empty and
the batch write succeeds. -/
theorem createEvent_eq_of_valid (store : List Event) (uid : String)
    (inp : CreateInput) (freshId : String) (batchOk cqOk : Bool)
    (hvalid : createSchemaValid inp = true) :
    createEvent store uid inp freshId batchOk cqOk =
      (if 0 < (expandRecurrence (baseRowOf uid inp freshId) inp.recurrence uid).length then
         if batchOk then
           (if (expandRecurrence (baseRowOf uid inp freshId) inp.recurrence uid).all rowValid
            then ⟨store ++ [baseRowOf uid inp freshId] ++
                    expandRecurrence (baseRowOf uid inp freshId) inp.recurrence uid,
                  201, true, some (baseRowOf uid inp freshId),
                  (expandRecurrence (baseRowOf uid inp freshId) inp.recurrence uid).length,
                  conflictsFieldOf cqOk store uid inp⟩
            else ⟨store ++ [baseRowOf uid inp freshId], 201, true,
                  some (baseRowOf uid inp freshId), 0, conflictsFieldOf cqOk store uid inp⟩)
         else ⟨store ++ [baseRowOf uid inp freshId], 201, true,
               some (baseRowOf uid inp freshId), 0, conflictsFieldOf cqOk store uid inp⟩
       else ⟨store ++ [baseRowOf uid inp freshId], 201, true,
             some (baseRowOf uid inp freshId), 0, conflictsFieldOf cqOk store uid inp⟩) := by
  have hlt : inp.start_time < inp.end_time := by
    have h := hvalid
    simp only [createSchemaValid, Bool.and_eq_true, decide_eq_true_eq] at h
    exact h.2
  have hbase : dbInsertMany store [baseRowOf uid inp freshId] =
      some (store ++ [baseRowOf uid inp freshId]) := by
    simp [dbInsertMany, rowValid, baseRowOf, hlt]
  unfold createEvent
  rw [if_neg (not_not_intro hvalid)]
  split
  · rename_i heq
    rw [hbase] at heq
    simp at heq
  · rename_i store1 heq
    rw [hbase] at heq
    injection heq with heq
    subst heq
    by_cases hlen :
        0 < (expandRecurrence (baseRowOf uid inp freshId) inp.recurrence uid).length
    · rw [if_pos hlen, if_pos hlen]
      cases batchOk with
      | false => simp
      | true =>
        rw [if_pos rfl, if_pos rfl]
        by_cases hall :
            (expandRecurrence (baseRowOf uid inp freshId) inp.recurrence uid).all
              rowValid
        · simp [dbInsertMany, hall]
        · simp [dbInsertMany, hall]
    · rw [if_neg hlen, if_neg hlen]

/-- C9: when the batch write of derived instances fails after the base event
was created, the base event stays persisted (no rollback), the handler still
reports a 201 success, and the reported count of derived instances created is
zero. -/
theorem batch_failure_partial_success (store : List Event) (uid : String)
    (inp : CreateInput) (freshId : String) (cqOk : Bool)
    (hvalid : createSchemaValid inp = true)
    (hrec : inp.recurrence ≠ .none) :
    (createEvent store uid inp freshId false cqOk).success = true ∧
    (createEvent store uid inp freshId false cqOk).status = 201 ∧
    (createEvent store uid inp freshId false cqOk).recurring_events_created = 0 ∧
    (createEvent store uid inp freshId false cqOk).store =
      store ++ [baseRowOf uid inp freshId] := by
  have hlen :
      0 < (expandRecurrence (baseRowOf uid inp freshId) inp.recurrence uid).length := by
    cases hr : inp.recurrence
    · exact absurd hr hrec
    all_goals
      unfold expandRecurrence
      rw [if_neg (by decide), length_generateRecurringPayloads]
      decide
  rw [createEvent_eq_of_valid store uid inp freshId false cqOk hvalid,
    if_pos hlen, if_neg Bool.false_ne_true]
  exact ⟨rfl, rfl, rfl, rfl⟩

/-- C9 witness: at a daily-recurrence create over the empty store with a
failing batch write, the response is a 201 success with zero derived
instances created and the base row persisted. -/
theorem batch_failure_partial_success_witness :
    (createEvent [] "user-1" sampleDailyInput "fresh-1" false true).success = true ∧
    (createEvent [] "user-1" sampleDailyInput "fresh-1" false true).status = 201 ∧
    (createEvent [] "user-1" sampleDailyInput "fresh-1" false
        true).recurring_events_created = 0 ∧
    (createEvent [] "user-1" sampleDailyInput "fresh-1" false true).store =
      [] ++ [baseRowOf "user-1" sampleDailyInput "fresh-1"] :=
  batch_failure_partial_success [] "user-1" sampleDailyInput "fresh-1" true
    (by decide) (by decide)

/-- A successful batch INSERT preserves the `end_after_start` invariant. -/
theorem dbInsertMany_invariant (store rows store' : List Event)
    (hInv : ∀ e ∈ store, e.start_time < e.end_time)
    (h : dbInsertMany store rows = some store') :
    ∀ e ∈ store', e.start_time < e.end_time := by
  unfold dbInsertMany at h
  split at h
  · rename_i hall
    injection h with h
    subst h
    intro e he
    rcases List.mem_append.mp he with h1 | h2
    · exact hInv e h1
    · have := List.all_eq_true.mp hall e h2
      simpa [rowValid] using this
  · simp at h

/-- C7: every event present in the store after a create or an update (partial
updates included) satisfies `endTime > startTime`; the schema refinements and
the `end_after_start` CHECK constraint together never let a violating row
persist. -/
theorem event_time_invariant (store : List Event) (uid : String)
    (hInv : ∀ e ∈ store, e.start_time < e.end_time) :
    (∀ inp freshId batchOk cqOk,
      ∀ e ∈ (createEvent store uid inp freshId batchOk cqOk).store,
        e.start_time < e.end_time) ∧
    (∀ eventId p,
      ∀ e ∈ (updateEvent store uid eventId p).store,
        e.start_time < e.end_time) := by
  constructor
  · intro inp freshId batchOk cqOk e he
    unfold createEvent at he
    split at he
    · exact hInv e he
    · split at he
      · exact hInv e he
      · rename_i store1 heq
        have hInv1 := dbInsertMany_invariant store _ store1 hInv heq
        split at he
        · split at he
          · split at he
            · rename_i store2 heq2
              exact dbInsertMany_invariant store1 _ store2 hInv1 heq2 e he
            · exact hInv1 e he
          · exact hInv1 e he
        · exact hInv1 e he
  · intro eventId p e he
    unfold updateEvent at he
    split at he
    · exact hInv e he
    · split at he
      · exact hInv e he
      · rename_i existing hfind
        split at he
        · rename_i hrv
          rcases List.mem_map.mp he with ⟨x, hx, hxe⟩
          by_cases hc : (x.id == some eventId && x.user_id == uid) = true
          · rw [if_pos hc] at hxe
            subst hxe
            simpa [rowValid] using hrv
          · rw [if_neg hc] at hxe
            subst hxe
            exact hInv x hx
        · exact hInv e he

/-- C7 witness: the base row persisted by a concrete create satisfies the
invariant. -/
theorem event_time_invariant_witness :
    (baseRowOf "user-1" sampleCreateInput "fresh-1").start_time <
      (baseRowOf "user-1" sampleCreateInput "fresh-1").end_time :=
  (event_time_invariant [] "user-1" (by simp)).1 sampleCreateInput "fresh-1"
    true true (baseRowOf "user-1" sampleCreateInput "fresh-1") (by decide)

/-- C5 counterexample: the create handler's conflict query reports an
existing event that merely touches the candidate at its end point: with
candidate `[10:00, 11:00)` and existing `[11:00, 12:00)`, the 201 response
carries a conflict count of 1. -/
theorem touching_event_reported_on_create :
    touchingEvent.start_time = sampleCreateInput.end_time ∧
    (createEvent [touchingEvent] "user-1" sampleCreateInput "fresh-1" true
        true).conflicts = some (1, [touchingEvent]) :=
  ⟨by decide, by decide⟩

/-- C5 amended: `overlaps` is exactly the half-open test `aStart < bEnd AND
aEnd > bStart`, under which touching endpoints never overlap; the SQL
pre-filter and the update handler's filter coincide with it, but the create
handler's conflict query instead selects events whose start lies in the
closed interval `[aStart, aEnd]` and therefore reports an event starting
exactly at the candidate's end. -/
theorem overlaps_halfopen_characterization (aS aE : Int) (e : Event) :
    (∀ bS bE : Int, (overlaps aS aE bS bE = true ↔ aS < bE ∧ aE > bS)) ∧
    (∀ bS bE : Int, aE = bS → overlaps aS aE bS bE = false) ∧
    (sqlConflictWhere aS aE e = overlaps aS aE e.start_time e.end_time) ∧
    (updateConflictWhere aS aE e = overlaps aS aE e.start_time e.end_time) ∧
    (aS ≤ aE → e.start_time = aE → e.id ≠ some "" →
      createConflictWhere aS aE e = true) := by
  refine ⟨?_, ?_, ?_, ?_, ?_⟩
  · intro bS bE
    simp [overlaps]
  · intro bS bE hEq
    subst hEq
    simp [overlaps]
  · simp [sqlConflictWhere, overlaps, Bool.and_comm]
  · simp [updateConflictWhere, overlaps, Bool.and_comm]
  · intro hle hstart hid
    simp [createConflictWhere, hstart, hle, bne_iff_ne, hid]

/-- C5 amended witness: the touching pair `[10:00,11:00)` / `[11:00,12:00)`
does not overlap, yet passes the create handler's conflict filter. -/
theorem overlaps_halfopen_characterization_witness :
    overlaps (ts 2025 1 1 10 0) (ts 2025 1 1 11 0) (ts 2025 1 1 11 0)
        (ts 2025 1 1 12 0) = false ∧
    createConflictWhere (ts 2025 1 1 10 0) (ts 2025 1 1 11 0) touchingEvent =
      true :=
  ⟨(overlaps_halfopen_characterization (ts 2025 1 1 10 0) (ts 2025 1 1 11 0)
        touchingEvent).2.1 (ts 2025 1 1 11 0) (ts 2025 1 1 12 0) (by decide),
    (overlaps_halfopen_characterization (ts 2025 1 1 10 0) (ts 2025 1 1 11 0)
        touchingEvent).2.2.2.2 (by decide) (by decide) (by decide)⟩

/-- C8 counterexample: an update moving the target to `[12:30, 13:30)`
changes the times and overlaps an existing event of the same user, yet the
update succeeds with a response carrying no conflict report (the 200 body has
only `success`, `data` and `message`). -/
theorem update_conflicts_unreported :
    updateConflictCheck [sampleBase, overlapPartner] "user-1" "base-1"
        sampleBase movePatch = some [overlapPartner] ∧
    (updateEvent [sampleBase, overlapPartner] "user-1" "base-1"
        movePatch).success = true ∧
    (updateEvent [sampleBase, overlapPartner] "user-1" "base-1"
        movePatch).conflicts = Option.none :=
  ⟨by decide, by decide, by decide⟩

/-- C8 amended: conflict detection never blocks or alters the outcome of a
create or update — the create outcome (success, status, created row, derived
count) is independent of the events already stored, and the update outcome is
unchanged by adding an overlapping row; the create response reports the
advisory query's findings, while the update handler issues its overlap query
but its response carries no conflict report. -/
theorem conflict_checks_advisory (store store2 : List Event) (uid : String) :
    (∀ inp freshId batchOk cqOk,
      (createEvent store uid inp freshId batchOk cqOk).success =
          (createEvent store2 uid inp freshId batchOk cqOk).success ∧
        (createEvent store uid inp freshId batchOk cqOk).status =
          (createEvent store2 uid inp freshId batchOk cqOk).status ∧
        (createEvent store uid inp freshId batchOk cqOk).data =
          (createEvent store2 uid inp freshId batchOk cqOk).data ∧
        (createEvent store uid inp freshId batchOk cqOk).recurring_events_created =
          (createEvent store2 uid inp freshId batchOk cqOk).recurring_events_created) ∧
    (∀ inp freshId batchOk, createSchemaValid inp = true →
      (createEvent store uid inp freshId batchOk true).conflicts =
        conflictsFieldOf true store uid inp) ∧
    (∀ eventId p, (updateEvent store uid eventId p).conflicts = Option.none) ∧
    (∀ c eventId p, (c.id == some eventId && c.user_id == uid) = false →
      (updateEvent (c :: store) uid eventId p).success =
          (updateEvent store uid eventId p).success ∧
        (updateEvent (c :: store) uid eventId p).status =
          (updateEvent store uid eventId p).status ∧
        (updateEvent (c :: store) uid eventId p).data =
          (updateEvent store uid eventId p).data) := by
  refine ⟨?_, ?_, ?_, ?_⟩
  · intro inp freshId batchOk cqOk
    by_cases hv : createSchemaValid inp = true
    · rw [createEvent_eq_of_valid store uid inp freshId batchOk cqOk hv,
        createEvent_eq_of_valid store2 uid inp freshId batchOk cqOk hv]
      split_ifs <;> exact ⟨rfl, rfl, rfl, rfl⟩
    · unfold createEvent
      rw [if_pos hv, if_pos hv]
      exact ⟨rfl, rfl, rfl, rfl⟩
  · intro inp freshId batchOk hv
    rw [createEvent_eq_of_valid store uid inp freshId batchOk true hv]
    split_ifs <;> rfl
  · intro eventId p
    unfold updateEvent
    split
    · rfl
    · split
      · rfl
      · split <;> rfl
  · intro c eventId p hc
    have hfind : (c :: store).find?
          (fun e => e.id == some eventId && e.user_id == uid) =
        store.find? (fun e => e.id == some eventId && e.user_id == uid) := by
      rw [List.find?_cons]
      simp [hc]
    by_cases hval : updateSchemaValid p = true
    · rcases hf : store.find? (fun e => e.id == some eventId && e.user_id == uid)
        with _ | ex
      · simp [updateEvent, hfind, hf, hval]
      · by_cases hrv : rowValid (applyPatch ex p) = true
        · simp [updateEvent, hfind, hf, hval, hrv]
        · simp [updateEvent, hfind, hf, hval, hrv]
    · simp [updateEvent, hval]

/-- C8 amended witness: a concrete update response carries no conflict
report. -/
theorem conflict_checks_advisory_witness :
    (updateEvent [sampleBase] "user-1" "base-1" movePatch).conflicts =
      Option.none :=
  (conflict_checks_advisory [sampleBase] [] "user-1").2.2.1 "base-1" movePatch

/-- C6 counterexample: deleting the base event of a series with the
series-delete flag takes the single-delete branch (the series branch requires
a non-null parent id on the target), so the base row is deleted with a
reported count of 1 while its child also disappears through the cascade: two
rows removed, count 1 reported. -/
theorem base_series_delete_count_mismatch :
    (deleteEvent [seriesBase, seriesChild] "user-1" "b" true).deleted_count = 1 ∧
    (deleteEvent [seriesBase, seriesChild] "user-1" "b" true).store = [] :=
  ⟨by decide, by decide⟩

/-- C6 amended: with the series-delete flag, when the target event has a
parentEventId the handler deletes exactly the user's rows whose id or
parentEventId equals that parent (the whole series), and the reported count
equals the total rows removed (provided no surviving row references a deleted
one); when the target is a base event (null parentEventId) only the base row
is deleted directly with a reported count of 1 — its derived instances are
removed by the store's cascading foreign key, uncounted. -/
theorem series_delete_behavior (store : List Event)
    (uid eventId parentId : String) (ex : Event)
    (hfind : store.find? (fun e => e.id == some eventId && e.user_id == uid) =
      some ex) :
    (ex.parent_event_id = some parentId →
      store.all (fun e => seriesRowPred uid parentId e ||
        parentNotIn
          ((store.filter (seriesRowPred uid parentId)).filterMap Event.id) e) =
        true →
      (deleteEvent store uid eventId true).store =
          store.filter (fun e => ! seriesRowPred uid parentId e) ∧
        (deleteEvent store uid eventId true).deleted_count =
          (store.filter (seriesRowPred uid parentId)).length ∧
        (deleteEvent store uid eventId true).deleted_count +
            (deleteEvent store uid eventId true).store.length = store.length) ∧
    (ex.parent_event_id = Option.none →
      (store.filter (singleRowPred uid eventId)).length = 1 →
      (deleteEvent store uid eventId true).deleted_count = 1 ∧
        ∀ e ∈ (deleteEvent store uid eventId true).store,
          e.parent_event_id ≠ some eventId) := by
  constructor
  · intro hpar hclosed
    have hrem : (store.filter (fun e => ! seriesRowPred uid parentId e)).all
        (parentNotIn
          ((store.filter (seriesRowPred uid parentId)).filterMap Event.id)) =
        true := by
      apply List.all_eq_true.mpr
      intro e he
      have hmem := List.mem_of_mem_filter he
      have hkeep := List.of_mem_filter he
      have hdisj := List.all_eq_true.mp hclosed e hmem
      simp only [Bool.or_eq_true] at hdisj
      rcases hdisj with h1 | h2
      · rw [h1] at hkeep
        simp at hkeep
      · exact h2
    have hcasc := removeCascade_eq_self _ _ hrem
    simp only [deleteEvent, hfind, hpar]
    rw [hcasc]
    by_cases hzero : (store.filter (seriesRowPred uid parentId)).length = 0
    · rw [if_pos hzero]
      refine ⟨rfl, hzero.symm, ?_⟩
      have hpart := length_filter_not_add (seriesRowPred uid parentId) store
      simpa [hzero] using hpart
    · rw [if_neg hzero]
      refine ⟨rfl, rfl, ?_⟩
      exact length_filter_not_add (seriesRowPred uid parentId) store
  · intro hpar huniq
    simp only [deleteEvent, hfind, hpar]
    rw [huniq, if_neg (by decide)]
    refine ⟨rfl, ?_⟩
    intro e he hpe
    have hnotin := parentNotIn_of_mem_removeCascade _ _ e he
    have hne : store.filter (singleRowPred uid eventId) ≠ [] := by
      intro hnil
      rw [hnil] at huniq
      simp at huniq
    obtain ⟨x, hx⟩ := List.exists_mem_of_ne_nil _ hne
    have hpred := List.of_mem_filter hx
    have hxid : x.id = some eventId := by
      have hand := (Bool.and_eq_true ..).mp hpred
      exact beq_iff_eq.mp hand.1
    rw [parentNotIn, orphanPred, hpe] at hnotin
    simp at hnotin
    exact hnotin x (List.mem_of_mem_filter hx) hpred hxid

/-- C6 amended witness: on the two-row series store, deleting from the child
removes both rows with a reported count of 2, while deleting from the base
reports a count of 1. -/
theorem series_delete_behavior_witness :
    (deleteEvent [seriesBase, seriesChild] "user-1" "c" true).deleted_count = 2 ∧
    (deleteEvent [seriesBase, seriesChild] "user-1" "b"
        true).deleted_count = 1 := by
  constructor
  · have h := ((series_delete_behavior [seriesBase, seriesChild] "user-1" "c" "b"
      seriesChild (by decide)).1 (by decide) (by decide)).2.1
    exact h.trans (by decide)
  · exact ((series_delete_behavior [seriesBase, seriesChild] "user-1" "b" "b"
      seriesBase (by decide)).2 (by decide) (by decide)).1

/-- C10 witness: an event strictly inside the query interval passes the
pre-filter and is classified `within`, not `adjacent`. -/
theorem classification_covers_overlaps_witness :
    OverlapType.within ≠ OverlapType.adjacent ∧
      (OverlapType.within = .encompasses ∨ OverlapType.within = .within ∨
        OverlapType.within = .overlaps_start ∨
        OverlapType.within = .overlaps_end) :=
  classification_covers_overlaps [touchingEvent] (ts 2025 1 1 10 30)
    (ts 2025 1 1 12 30) "user-1" Option.none touchingEvent .within (by decide)

end CalendarBackend
